import Mathlib

/-
Verification of the go-config repository: a JSON-backed configuration
library with a watchable variant (src/json/json.go) and a legacy variant
(src/config/json/json.go).  Documents are mappings from keys to raw,
still-encoded value slices (Go: map[string]*json.RawMessage); typed
decoding happens on every access.  The embedding below models Go's
encoding/json behaviour on the types this code uses, the accessors of
both variants (including their read-lock usage and nil-raw-pointer
panics), the watch state machine, and the background reload listener.
-/

deriving instance DecidableEq for Except

namespace GoConfig

/-- Raw value handle: the undecoded characters of one JSON value,
corresponding to Go's json.RawMessage. -/
abbrev Raw := List Char

/-- JSON whitespace as accepted by encoding/json: space, tab, CR, LF. -/
def isWsChar (c : Char) : Bool :=
  c = ' ' || c = '\t' || c = '\r' || c = '\n'

def skipWs : List Char → List Char
  | [] => []
  | c :: cs => if isWsChar c then skipWs cs else c :: cs

def isDigitChar (c : Char) : Bool :=
  '0' ≤ c && c ≤ '9'

def digitVal (c : Char) : Nat := c.toNat - '0'.toNat

/-- Take the longest prefix of decimal digits. -/
def takeDigits : List Char → List Char × List Char
  | [] => ([], [])
  | c :: cs =>
    if isDigitChar c then
      let p := takeDigits cs
      (c :: p.1, p.2)
    else ([], c :: cs)

def natOfDigitsAux (acc : Nat) : List Char → Nat
  | [] => acc
  | c :: cs => natOfDigitsAux (acc * 10 + digitVal c) cs

def natOfDigits (ds : List Char) : Nat := natOfDigitsAux 0 ds

/-- A parsed JSON value.  Object members keep only the raw slice of each
member value, exactly as Go's map[string]*json.RawMessage does; a JSON
null member is stored as none, modelling the nil pointer that
encoding/json leaves for a null decoded into a pointer type. -/
inductive JVal where
  | jnull
  | jbool (b : Bool)
  | jnum (neg : Bool) (ip : List Char) (frac : List Char) (ex : Option (Bool × List Char))
  | jstr (s : String)
  | jarr (elems : List JVal)
  | jobj (members : List (String × Option Raw))

def JVal.isNull : JVal → Bool
  | JVal.jnull => true
  | _ => false

/-- JSON integer part: a single 0 or a nonzero digit followed by digits. -/
def parseIntPart : List Char → Option (List Char × List Char)
  | [] => none
  | c :: cs =>
    if c = '0' then some ([c], cs)
    else if isDigitChar c then
      let p := takeDigits cs
      some (c :: p.1, p.2)
    else none

def parseExpPart (neg : Bool) (ip frac : List Char) : List Char → Option (JVal × List Char)
  | c :: cs =>
    if c = 'e' || c = 'E' then
      let p : Bool × List Char :=
        match cs with
        | '+' :: r => (false, r)
        | '-' :: r => (true, r)
        | _ => (false, cs)
      match takeDigits p.2 with
      | ([], _) => none
      | (ds, r) => some (JVal.jnum neg ip frac (some (p.1, ds)), r)
    else some (JVal.jnum neg ip frac none, c :: cs)
  | [] => some (JVal.jnum neg ip frac none, [])

/-- JSON number grammar: optional minus, integer part, optional fraction,
optional exponent. -/
def parseNum (s : List Char) : Option (JVal × List Char) :=
  let p : Bool × List Char :=
    match s with
    | '-' :: cs => (true, cs)
    | _ => (false, s)
  match parseIntPart p.2 with
  | none => none
  | some (ip, s2) =>
    match s2 with
    | '.' :: cs =>
      match takeDigits cs with
      | ([], _) => none
      | (ds, s3) => parseExpPart p.1 ip ds s3
    | _ => parseExpPart p.1 ip [] s2

def escCharOf (c : Char) : Option Char :=
  if c = '"' then some '"'
  else if c = '\\' then some '\\'
  else if c = '/' then some '/'
  else if c = 'b' then some (Char.ofNat 8)
  else if c = 'f' then some (Char.ofNat 12)
  else if c = 'n' then some '\n'
  else if c = 'r' then some '\r'
  else if c = 't' then some '\t'
  else none

def hexDigitVal (c : Char) : Option Nat :=
  if '0' ≤ c ∧ c ≤ '9' then some (c.toNat - '0'.toNat)
  else if 'a' ≤ c ∧ c ≤ 'f' then some (c.toNat - 'a'.toNat + 10)
  else if 'A' ≤ c ∧ c ≤ 'F' then some (c.toNat - 'A'.toNat + 10)
  else none

/-- Characters of a JSON string after the opening quote, with escapes;
control characters below 0x20 are rejected, as encoding/json does. -/
def parseStrChars : Nat → List Char → Option (List Char × List Char)
  | 0, _ => none
  | Nat.succ fuel, s =>
    match s with
    | [] => none
    | c :: cs =>
      if c = '"' then some ([], cs)
      else if c = '\\' then
        match cs with
        | [] => none
        | e :: cs2 =>
          if e = 'u' then
            match cs2 with
            | h1 :: h2 :: h3 :: h4 :: cs3 => do
              let v1 ← hexDigitVal h1
              let v2 ← hexDigitVal h2
              let v3 ← hexDigitVal h3
              let v4 ← hexDigitVal h4
              let p ← parseStrChars fuel cs3
              some (Char.ofNat (((v1 * 16 + v2) * 16 + v3) * 16 + v4) :: p.1, p.2)
            | _ => none
          else do
            let ec ← escCharOf e
            let p ← parseStrChars fuel cs2
            some (ec :: p.1, p.2)
      else if c.toNat < 32 then none
      else do
        let p ← parseStrChars fuel cs
        some (c :: p.1, p.2)

/-- Go map assignment semantics while decoding an object: a repeated key
replaces the earlier value, otherwise the member is appended. -/
def insertMember (ms : List (String × Option Raw)) (e : String × Option Raw) :
    List (String × Option Raw) :=
  match ms with
  | [] => [e]
  | m :: rest => if m.1 = e.1 then e :: rest else m :: insertMember rest e

mutual

/-- One JSON value, starting at a non-whitespace character; returns the
value and the unconsumed suffix. -/
def parseVal : Nat → List Char → Option (JVal × List Char)
  | 0, _ => none
  | Nat.succ fuel, s =>
    match s with
    | [] => none
    | c :: cs =>
      if c = '{' then
        match skipWs cs with
        | '}' :: r => some (JVal.jobj [], r)
        | s1 => parseMembers fuel s1 []
      else if c = '[' then
        match skipWs cs with
        | ']' :: r => some (JVal.jarr [], r)
        | s1 => parseElems fuel s1 []
      else if c = '"' then
        match parseStrChars fuel cs with
        | some (chars, r) => some (JVal.jstr (String.mk chars), r)
        | none => none
      else if c = 't' then
        match cs with
        | 'r' :: 'u' :: 'e' :: r => some (JVal.jbool true, r)
        | _ => none
      else if c = 'f' then
        match cs with
        | 'a' :: 'l' :: 's' :: 'e' :: r => some (JVal.jbool false, r)
        | _ => none
      else if c = 'n' then
        match cs with
        | 'u' :: 'l' :: 'l' :: r => some (JVal.jnull, r)
        | _ => none
      else parseNum s

/-- Object members, positioned at the opening quote of a key; each member
value is validated and stored as its raw character span (none for the
null literal, matching the nil pointer Go stores). -/
def parseMembers : Nat → List Char → List (String × Option Raw) →
    Option (JVal × List Char)
  | 0, _, _ => none
  | Nat.succ fuel, s, acc =>
    match s with
    | '"' :: cs =>
      match parseStrChars fuel cs with
      | none => none
      | some (kchars, r1) =>
        match skipWs r1 with
        | ':' :: r2 =>
          let r3 := skipWs r2
          match parseVal fuel r3 with
          | none => none
          | some (v, r4) =>
            let span := r3.take (r3.length - r4.length)
            let acc2 := insertMember acc
              (String.mk kchars, if v.isNull then none else some span)
            match skipWs r4 with
            | ',' :: r5 => parseMembers fuel (skipWs r5) acc2
            | '}' :: r5 => some (JVal.jobj acc2, r5)
            | _ => none
        | _ => none
    | _ => none

/-- Array elements, positioned at the first element. -/
def parseElems : Nat → List Char → List JVal → Option (JVal × List Char)
  | 0, _, _ => none
  | Nat.succ fuel, s, acc =>
    match parseVal fuel s with
    | none => none
    | some (v, r1) =>
      match skipWs r1 with
      | ',' :: r2 => parseElems fuel (skipWs r2) (acc ++ [v])
      | ']' :: r2 => some (JVal.jarr (acc ++ [v]), r2)
      | _ => none

end

/-- Full-input parse, as json.Unmarshal validates its whole input: one
value surrounded only by whitespace. -/
def parseFull (s : List Char) : Option JVal :=
  match parseVal (2 * s.length + 8) (skipWs s) with
  | some (v, rest) => if skipWs rest = [] then some v else none
  | none => none

/-- The parsed configuration mapping: Go's map[string]*json.RawMessage.
The entry value none models a nil *json.RawMessage (stored for a JSON
null member value). -/
abbrev Document := List (String × Option Raw)

/-- The distinguishable error kinds surfaced by the code: a
json.SyntaxError (malformed input), a json.UnmarshalTypeError (valid
JSON of the wrong shape, carrying the expected Go type), the
fmt.Errorf values naming a missing key or section, and a
time.Parse failure. -/
inductive JErr where
  | malformed
  | typeMismatch (goType : String)
  | notFound (key : String)
  | sectionNotFound (key : String)
  | timeParseErr
deriving DecidableEq

/-- Outcome of one Go call that can return a value, return an error, or
abort with a runtime panic (nil raw-pointer dereference). -/
inductive Res (α : Type) where
  | ok (a : α)
  | err (e : JErr)
  | panic
deriving DecidableEq

/-- Go map lookup into the document: none when the key is absent;
some none when the entry holds a nil raw pointer (JSON null). -/
def lookupRaw (d : Document) (k : String) : Option (Option Raw) :=
  match d with
  | [] => none
  | m :: rest => if m.1 = k then some m.2 else lookupRaw rest k

/-- json.Unmarshal of a buffer into map[string]*json.RawMessage: the
whole input must be valid JSON (else SyntaxError); an object yields its
member map, the null literal sets the map to nil with no error (a nil
map reads as the empty document), and any other top-level value is an
UnmarshalTypeError. -/
def unmarshalDoc (s : Raw) : Except JErr Document :=
  match parseFull s with
  | none => Except.error JErr.malformed
  | some (JVal.jobj ms) => Except.ok ms
  | some JVal.jnull => Except.ok []
  | some _ => Except.error (JErr.typeMismatch "map")

/-- json.Unmarshal of a raw value into a Go string; a null leaves the
zero value with no error. -/
def unmarshalString (s : Raw) : Except JErr String :=
  match parseFull s with
  | none => Except.error JErr.malformed
  | some (JVal.jstr v) => Except.ok v
  | some JVal.jnull => Except.ok ""
  | some _ => Except.error (JErr.typeMismatch "string")

/-- json.Unmarshal of a raw value into a Go bool. -/
def unmarshalBool (s : Raw) : Except JErr Bool :=
  match parseFull s with
  | none => Except.error JErr.malformed
  | some (JVal.jbool b) => Except.ok b
  | some JVal.jnull => Except.ok false
  | some _ => Except.error (JErr.typeMismatch "bool")

/-- json.Unmarshal of a raw value into a Go int (64-bit): the literal
must be a plain integer (no fraction or exponent, via strconv.ParseInt)
within the int64 range. -/
def unmarshalInt (s : Raw) : Except JErr Int :=
  match parseFull s with
  | none => Except.error JErr.malformed
  | some JVal.jnull => Except.ok 0
  | some (JVal.jnum neg ip frac ex) =>
    if frac = [] ∧ ex = none then
      let n : Int := if neg then -(natOfDigits ip : Int) else (natOfDigits ip : Int)
      if -(2 : Int) ^ 63 ≤ n ∧ n ≤ 2 ^ 63 - 1 then Except.ok n
      else Except.error (JErr.typeMismatch "int")
    else Except.error (JErr.typeMismatch "int")
  | some _ => Except.error (JErr.typeMismatch "int")

/-- json.Unmarshal of a raw value into a Go uint64: a plain non-negative
integer literal (strconv.ParseUint) below 2^64. -/
def unmarshalUint64 (s : Raw) : Except JErr Nat :=
  match parseFull s with
  | none => Except.error JErr.malformed
  | some JVal.jnull => Except.ok 0
  | some (JVal.jnum neg ip frac ex) =>
    if neg = false ∧ frac = [] ∧ ex = none ∧ natOfDigits ip < 2 ^ 64 then
      Except.ok (natOfDigits ip)
    else Except.error (JErr.typeMismatch "uint64")
  | some _ => Except.error (JErr.typeMismatch "uint64")

def asString : JVal → Option String
  | JVal.jstr s => some s
  | _ => none

/-- json.Unmarshal of a raw value into a Go []string: an array whose
elements are all strings; null leaves the nil slice with no error. -/
def unmarshalStringSlice (s : Raw) : Except JErr (List String) :=
  match parseFull s with
  | none => Except.error JErr.malformed
  | some JVal.jnull => Except.ok []
  | some (JVal.jarr es) =>
    match es.mapM asString with
    | some strs => Except.ok strs
    | none => Except.error (JErr.typeMismatch "string")
  | some _ => Except.error (JErr.typeMismatch "[]string")

/-- A calendar date, the observable part of the time.Time the code
produces (layout 2.1.2006 carries no time of day or zone). -/
structure Date where
  day : Nat
  month : Nat
  year : Nat
deriving DecidableEq

/-- One or two leading digits, as Go's getnum reads for layout items
2 (day) and 1 (month). -/
def take12 : List Char → Option (Nat × List Char)
  | [] => none
  | c1 :: rest =>
    if isDigitChar c1 then
      match rest with
      | c2 :: rest2 =>
        if isDigitChar c2 then some (digitVal c1 * 10 + digitVal c2, rest2)
        else some (digitVal c1, c2 :: rest2)
      | [] => some (digitVal c1, [])
    else none

/-- Exactly four digits, as layout item 2006 (long year) requires. -/
def take4 : List Char → Option (Nat × List Char)
  | c1 :: c2 :: c3 :: c4 :: rest =>
    if isDigitChar c1 ∧ isDigitChar c2 ∧ isDigitChar c3 ∧ isDigitChar c4 then
      some (((digitVal c1 * 10 + digitVal c2) * 10 + digitVal c3) * 10 + digitVal c4, rest)
    else none
  | _ => none

def isLeapYear (y : Nat) : Bool :=
  y % 4 = 0 && (y % 100 ≠ 0 || y % 400 = 0)

def daysIn (m y : Nat) : Nat :=
  if m = 2 then (if isLeapYear y then 29 else 28)
  else if m = 4 ∨ m = 6 ∨ m = 9 ∨ m = 11 then 30
  else 31

/-- time.Parse with the fixed layout 2.1.2006: one-or-two-digit day,
dot, one-or-two-digit month, dot, four-digit year, nothing after;
Go then validates month and day ranges. -/
def parseDate (s : String) : Option Date :=
  match take12 s.data with
  | none => none
  | some (d, r1) =>
    match r1 with
    | '.' :: r2 =>
      match take12 r2 with
      | none => none
      | some (m, r3) =>
        match r3 with
        | '.' :: r4 =>
          match take4 r4 with
          | none => none
          | some (y, r5) =>
            if r5 = [] ∧ 1 ≤ m ∧ m ≤ 12 ∧ 1 ≤ d ∧ d ≤ daysIn m y then
              some ⟨d, m, y⟩
            else none
        | _ => none
    | _ => none

/-- Operations on the sync.RWMutex guarding the document of the
watchable variant, in the order the accessor performs them. -/
inductive LockOp where
  | rlock
  | runlock
  | lock
  | unlock
deriving DecidableEq

namespace JsonConfig

/-- newConf of src/json/json.go: json.Unmarshal into the map field. -/
def newConf (s : Raw) : Except JErr Document :=
  unmarshalDoc s

/-- getBool of src/json/json.go: RLock, existence check, unmarshal of
the dereferenced raw pointer, RUnlock on each return path.  A nil raw
pointer (null value) panics at the dereference, before RUnlock. -/
def getBool (c : Document) (key : String) : Res Bool × List LockOp :=
  match lookupRaw c key with
  | none => (Res.err (JErr.notFound key), [LockOp.rlock, LockOp.runlock])
  | some none => (Res.panic, [LockOp.rlock])
  | some (some raw) =>
    match unmarshalBool raw with
    | Except.error e => (Res.err e, [LockOp.rlock, LockOp.runlock])
    | Except.ok v => (Res.ok v, [LockOp.rlock, LockOp.runlock])

/-- getString of src/json/json.go. -/
def getString (c : Document) (key : String) : Res String × List LockOp :=
  match lookupRaw c key with
  | none => (Res.err (JErr.notFound key), [LockOp.rlock, LockOp.runlock])
  | some none => (Res.panic, [LockOp.rlock])
  | some (some raw) =>
    match unmarshalString raw with
    | Except.error e => (Res.err e, [LockOp.rlock, LockOp.runlock])
    | Except.ok v => (Res.ok v, [LockOp.rlock, LockOp.runlock])

/-- getInt of src/json/json.go. -/
def getInt (c : Document) (key : String) : Res Int × List LockOp :=
  match lookupRaw c key with
  | none => (Res.err (JErr.notFound key), [LockOp.rlock, LockOp.runlock])
  | some none => (Res.panic, [LockOp.rlock])
  | some (some raw) =>
    match unmarshalInt raw with
    | Except.error e => (Res.err e, [LockOp.rlock, LockOp.runlock])
    | Except.ok v => (Res.ok v, [LockOp.rlock, LockOp.runlock])

/-- getUint64 of src/json/json.go. -/
def getUint64 (c : Document) (key : String) : Res Nat × List LockOp :=
  match lookupRaw c key with
  | none => (Res.err (JErr.notFound key), [LockOp.rlock, LockOp.runlock])
  | some none => (Res.panic, [LockOp.rlock])
  | some (some raw) =>
    match unmarshalUint64 raw with
    | Except.error e => (Res.err e, [LockOp.rlock, LockOp.runlock])
    | Except.ok v => (Res.ok v, [LockOp.rlock, LockOp.runlock])

/-- getStringSlice of src/json/json.go. -/
def getStringSlice (c : Document) (key : String) : Res (List String) × List LockOp :=
  match lookupRaw c key with
  | none => (Res.err (JErr.notFound key), [LockOp.rlock, LockOp.runlock])
  | some none => (Res.panic, [LockOp.rlock])
  | some (some raw) =>
    match unmarshalStringSlice raw with
    | Except.error e => (Res.err e, [LockOp.rlock, LockOp.runlock])
    | Except.ok v => (Res.ok v, [LockOp.rlock, LockOp.runlock])

/-- getTime of src/json/json.go: getString, then time.Parse with layout
2.1.2006 outside the lock. -/
def getTime (c : Document) (key : String) : Res Date × List LockOp :=
  match getString c key with
  | (Res.panic, tr) => (Res.panic, tr)
  | (Res.err e, tr) => (Res.err e, tr)
  | (Res.ok s, tr) =>
    match parseDate s with
    | none => (Res.err JErr.timeParseErr, tr)
    | some d => (Res.ok d, tr)

/-- Section of src/json/json.go: existence check, then json.Unmarshal
of the raw value into a fresh map; it takes no lock at all. -/
def Section (c : Document) (key : String) : Res Document × List LockOp :=
  match lookupRaw c key with
  | none => (Res.err (JErr.sectionNotFound key), [])
  | some none => (Res.panic, [])
  | some (some raw) =>
    match unmarshalDoc raw with
    | Except.error e => (Res.err e, [])
    | Except.ok ms => (Res.ok ms, [])

/-- SectionAsJSON of src/json/json.go: RLock, existence check, RUnlock,
then return the raw bytes as a string (the dereference happens after
RUnlock, so a nil raw pointer panics outside the lock). -/
def SectionAsJSON (c : Document) (key : String) : Res String × List LockOp :=
  match lookupRaw c key with
  | none => (Res.err (JErr.sectionNotFound key), [LockOp.rlock, LockOp.runlock])
  | some none => (Res.panic, [LockOp.rlock, LockOp.runlock])
  | some (some raw) => (Res.ok (String.mk raw), [LockOp.rlock, LockOp.runlock])

/-- UnmarshalSection of src/json/json.go: existence check, then
json.Unmarshal of the raw value into the caller-supplied destination
(abstracted as a decoder); it takes no lock at all. -/
def UnmarshalSection (c : Document) (key : String)
    (dec : Raw → Except JErr Unit) : Res Unit × List LockOp :=
  match lookupRaw c key with
  | none => (Res.err (JErr.sectionNotFound key), [])
  | some none => (Res.panic, [])
  | some (some raw) =>
    match dec raw with
    | Except.error e => (Res.err e, [])
    | Except.ok _ => (Res.ok (), [])

/-- GetString of src/json/json.go: value on success, default on error. -/
def GetString (c : Document) (key : String) (defaultVal : String) : Res String :=
  match (getString c key).1 with
  | Res.ok v => Res.ok v
  | Res.err _ => Res.ok defaultVal
  | Res.panic => Res.panic

/-- GetInt of src/json/json.go. -/
def GetInt (c : Document) (key : String) (defaultVal : Int) : Res Int :=
  match (getInt c key).1 with
  | Res.ok v => Res.ok v
  | Res.err _ => Res.ok defaultVal
  | Res.panic => Res.panic

/-- GetBool of src/json/json.go. -/
def GetBool (c : Document) (key : String) (defaultVal : Bool) : Res Bool :=
  match (getBool c key).1 with
  | Res.ok v => Res.ok v
  | Res.err _ => Res.ok defaultVal
  | Res.panic => Res.panic

/-- GetUint64 of src/json/json.go. -/
def GetUint64 (c : Document) (key : String) (defaultVal : Nat) : Res Nat :=
  match (getUint64 c key).1 with
  | Res.ok v => Res.ok v
  | Res.err _ => Res.ok defaultVal
  | Res.panic => Res.panic

/-- GetStringSlice of src/json/json.go. -/
def GetStringSlice (c : Document) (key : String) (defaultVal : List String) :
    Res (List String) :=
  match (getStringSlice c key).1 with
  | Res.ok v => Res.ok v
  | Res.err _ => Res.ok defaultVal
  | Res.panic => Res.panic

/-- GetTime of src/json/json.go. -/
def GetTime (c : Document) (key : String) (defaultVal : Date) : Res Date :=
  match (getTime c key).1 with
  | Res.ok v => Res.ok v
  | Res.err _ => Res.ok defaultVal
  | Res.panic => Res.panic

end JsonConfig

namespace LegacyConfig

/-- new of src/config/json/json.go: json.Unmarshal into the map field. -/
def newDocOf (s : Raw) : Except JErr Document :=
  unmarshalDoc s

/-- getString of src/config/json/json.go: no existence check — an
absent key yields the zero-value nil *json.RawMessage from the map and
the dereference panics; a null value panics the same way. -/
def getString (c : Document) (key : String) : Res String :=
  match lookupRaw c key with
  | none => Res.panic
  | some none => Res.panic
  | some (some raw) =>
    match unmarshalString raw with
    | Except.error e => Res.err e
    | Except.ok v => Res.ok v

/-- getInt of src/config/json/json.go: no existence check, same panic
on an absent key or a null value. -/
def getInt (c : Document) (key : String) : Res Int :=
  match lookupRaw c key with
  | none => Res.panic
  | some none => Res.panic
  | some (some raw) =>
    match unmarshalInt raw with
    | Except.error e => Res.err e
    | Except.ok v => Res.ok v

/-- getTime of src/config/json/json.go. -/
def getTime (c : Document) (key : String) : Res Date :=
  match getString c key with
  | Res.panic => Res.panic
  | Res.err e => Res.err e
  | Res.ok s =>
    match parseDate s with
    | none => Res.err JErr.timeParseErr
    | some d => Res.ok d

/-- Section of src/config/json/json.go: no existence check — it
dereferences the raw pointer immediately, panicking on an absent key. -/
def Section (c : Document) (key : String) : Res Document :=
  match lookupRaw c key with
  | none => Res.panic
  | some none => Res.panic
  | some (some raw) =>
    match unmarshalDoc raw with
    | Except.error e => Res.err e
    | Except.ok ms => Res.ok ms

/-- GetString of src/config/json/json.go. -/
def GetString (c : Document) (key : String) (defaultVal : String) : Res String :=
  match getString c key with
  | Res.ok v => Res.ok v
  | Res.err _ => Res.ok defaultVal
  | Res.panic => Res.panic

/-- GetInt of src/config/json/json.go. -/
def GetInt (c : Document) (key : String) (defaultVal : Int) : Res Int :=
  match getInt c key with
  | Res.ok v => Res.ok v
  | Res.err _ => Res.ok defaultVal
  | Res.panic => Res.panic

end LegacyConfig

namespace JsonConfig

/-- The watch-related fields of the Config struct of src/json/json.go:
the isBeingWatched int32 flag driven by compare-and-swap, the fsnotify
watcher pointer (none models nil), and whether the notification channel
field is set. -/
structure WatchState where
  isBeingWatched : Bool
  watcher : Option Nat
  watchC : Bool
deriving DecidableEq

/-- A freshly constructed Config: flag clear, nil watcher, no channel. -/
def initState : WatchState := ⟨false, none, false⟩

/-- Errors Watch can return: ErrAlreadyBeingWatched, or the error from
fsnotify.NewWatcher passed through (carried here by an error code). -/
inductive WatchErr where
  | alreadyBeingWatched
  | watcherErr (code : Nat)
deriving DecidableEq

/-- Watch of src/json/json.go.  The CAS on isBeingWatched runs first;
if it succeeds the flag is set before fsnotify.NewWatcher is called
(its outcome is the newWatcher argument), so a NewWatcher failure
returns that error with the flag left set and the watcher and channel
fields unassigned. -/
def Watch (s : WatchState) (newWatcher : Except Nat Nat) :
    Except WatchErr Unit × WatchState :=
  if s.isBeingWatched then (Except.error WatchErr.alreadyBeingWatched, s)
  else
    match newWatcher with
    | Except.error e =>
      (Except.error (WatchErr.watcherErr e), { s with isBeingWatched := true })
    | Except.ok w =>
      (Except.ok (), ⟨true, some w, true⟩)

/-- Outcome of StopWatching: success, ErrNotBeingWatched, or the runtime
panic of calling Close on a nil fsnotify watcher. -/
inductive StopRes where
  | ok
  | errNotBeingWatched
  | panicNilWatcher
deriving DecidableEq

/-- StopWatching of src/json/json.go: CAS the flag from 1 to 0 (so the
flag is already clear when Close runs), close the watcher — panicking
if the watcher pointer is nil — sleep, close and clear the channel,
clear the watcher pointer. -/
def StopWatching (s : WatchState) : StopRes × WatchState :=
  if s.isBeingWatched then
    match s.watcher with
    | none => (StopRes.panicNilWatcher, { s with isBeingWatched := false })
    | some _ => (StopRes.ok, ⟨false, none, false⟩)
  else (StopRes.errNotBeingWatched, s)

/-- What re-reading and re-parsing the backing file yields when the
listener handles a write event: an ioutil.ReadFile failure, a
json.Unmarshal failure, or a fresh document. -/
inductive ReloadOutcome where
  | readErr
  | parseErr
  | newDoc (d : Document)
deriving DecidableEq

/-- One event delivered to the background listener: a write-kind
fsnotify event (with the outcome its reload attempt would have), any
other fsnotify event, or an entry on the watcher's error channel. -/
inductive Ev where
  | write (o : ReloadOutcome)
  | other
  | subErr
deriving DecidableEq

/-- Observable actions of the listener: taking and releasing the write
lock, swapping in a document, receiving and discarding one extra event,
and sending one notification on the channel. -/
inductive Act where
  | lock
  | swapDoc (d : Document)
  | unlock
  | discardEvent
  | notify
deriving DecidableEq

/-- The background listener goroutine of Watch (src/json/json.go,
lines 71-113), run over a finite trace of delivered events; the result
is the document field after the trace and the actions performed.  On a
write event the reload runs: a read or parse failure continues the loop
(no further action); success swaps the document under the write lock.
Then — for any non-failed branch, write or not — the listener receives
and discards one more event before sending one notification; if no
further event is delivered it stays blocked there. -/
def listen (doc : Document) : List Ev → Document × List Act
  | [] => (doc, [])
  | Ev.subErr :: rest => listen doc rest
  | Ev.other :: rest =>
    match rest with
    | [] => (doc, [])
    | _ :: rest2 =>
      let p := listen doc rest2
      (p.1, Act.discardEvent :: Act.notify :: p.2)
  | Ev.write ReloadOutcome.readErr :: rest => listen doc rest
  | Ev.write ReloadOutcome.parseErr :: rest => listen doc rest
  | Ev.write (ReloadOutcome.newDoc nd) :: rest =>
    match rest with
    | [] => (nd, [Act.lock, Act.swapDoc nd, Act.unlock])
    | _ :: rest2 =>
      let p := listen nd rest2
      (p.1, Act.lock :: Act.swapDoc nd :: Act.unlock :: Act.discardEvent :: Act.notify :: p.2)

end JsonConfig

/-- Text of the document with a numeric id, from the repository's tests. -/
def exIdText : List Char := "\x7b\"id\": 1\x7d".data

/-- The document parsed from exIdText. -/
def exIdDoc : Document := [("id", some ['1'])]

/-- Text of a document holding a JSON null value. -/
def exNullText : List Char := "\x7b\"k\": null\x7d".data

/-- The document parsed from exNullText: the null member is held as a
nil raw pointer. -/
def exNullDoc : Document := [("k", none)]

/-- Text of a document with a null birthday value. -/
def exNullBdayText : List Char := "\x7b\"birthday\": null\x7d".data

/-- The document parsed from exNullBdayText. -/
def exNullBdayDoc : Document := [("birthday", none)]

/-- Text of the birthday document from the repository's tests. -/
def exBdayText : List Char := "\x7b\"birthday\": \"12.09.2018\"\x7d".data

/-- The document parsed from exBdayText. -/
def exBdayDoc : Document := [("birthday", some "\"12.09.2018\"".data)]

/-- Text of the nested-address document from the repository's tests. -/
def exAddrText : List Char :=
  "\x7b\"address\": \x7b\"city\": \"Moscow\", \"street\": \"Lenina str.\"\x7d\x7d".data

/-- The raw slice of the address value inside exAddrText. -/
def exAddrRaw : Raw :=
  "\x7b\"city\": \"Moscow\", \"street\": \"Lenina str.\"\x7d".data

/-- The document parsed from exAddrText. -/
def exAddrDoc : Document := [("address", some exAddrRaw)]

/-- The nested document parsed from exAddrRaw. -/
def exCityDoc : Document :=
  [("city", some "\"Moscow\"".data), ("street", some "\"Lenina str.\"".data)]

/-- A well-formed document whose top level is an array. -/
def exArrText : List Char := "[1, 2]".data

/-- A well-formed document whose top level is the null literal. -/
def exNullTopText : List Char := "null".data

/-- Syntactically invalid text (unquoted key), from the tests. -/
def exBadText : List Char := "\x7bqwe: \"qwe\"\x7d".data

/-- Helper: a trace containing no successful-reload write event leaves
the listener's document unchanged. -/
theorem listen_fst_of_no_newDoc :
    ∀ (n : Nat) (es : List JsonConfig.Ev), es.length ≤ n → ∀ (doc : Document),
      (∀ d, JsonConfig.Ev.write (JsonConfig.ReloadOutcome.newDoc d) ∉ es) →
      (JsonConfig.listen doc es).1 = doc := by
  intro n
  induction n with
  | zero =>
    intro es hlen doc _
    have he : es = [] := List.eq_nil_of_length_eq_zero (Nat.le_zero.mp hlen)
    subst he
    rfl
  | succ n ih =>
    intro es hlen doc h
    cases es with
    | nil => rfl
    | cons e rest =>
      have hrest : ∀ d, JsonConfig.Ev.write (JsonConfig.ReloadOutcome.newDoc d) ∉ rest :=
        fun d hm => h d (List.mem_cons_of_mem _ hm)
      have hlen1 : rest.length ≤ n := Nat.le_of_succ_le_succ (by simpa using hlen)
      cases e with
      | subErr => exact ih rest hlen1 doc hrest
      | other =>
        cases rest with
        | nil => rfl
        | cons e2 rest2 =>
          have h2 : ∀ d, JsonConfig.Ev.write (JsonConfig.ReloadOutcome.newDoc d) ∉ rest2 :=
            fun d hm => hrest d (List.mem_cons_of_mem _ hm)
          have hlen2 : rest2.length ≤ n := by
            have : rest2.length + 1 ≤ n := by simpa using hlen1
            omega
          exact ih rest2 hlen2 doc h2
      | write o =>
        cases o with
        | readErr => exact ih rest hlen1 doc hrest
        | parseErr => exact ih rest hlen1 doc hrest
        | newDoc d => exact absurd (List.mem_cons_self _ _) (h d)

/-- Helper: every notification the listener emits is paired with one
received-and-discarded extra event. -/
theorem listen_notify_eq_discard :
    ∀ (n : Nat) (es : List JsonConfig.Ev), es.length ≤ n → ∀ (doc : Document),
      (JsonConfig.listen doc es).2.count JsonConfig.Act.notify
        = (JsonConfig.listen doc es).2.count JsonConfig.Act.discardEvent := by
  intro n
  induction n with
  | zero =>
    intro es hlen doc
    have he : es = [] := List.eq_nil_of_length_eq_zero (Nat.le_zero.mp hlen)
    subst he
    rfl
  | succ n ih =>
    intro es hlen doc
    cases es with
    | nil => rfl
    | cons e rest =>
      have hlen1 : rest.length ≤ n := Nat.le_of_succ_le_succ (by simpa using hlen)
      cases e with
      | subErr => exact ih rest hlen1 doc
      | other =>
        cases rest with
        | nil => rfl
        | cons e2 rest2 =>
          have hlen2 : rest2.length ≤ n := by
            have : rest2.length + 1 ≤ n := by simpa using hlen1
            omega
          have ihr := ih rest2 hlen2 doc
          simp [JsonConfig.listen, List.count_cons]
          omega
      | write o =>
        cases o with
        | readErr => exact ih rest hlen1 doc
        | parseErr => exact ih rest hlen1 doc
        | newDoc nd =>
          cases rest with
          | nil => rfl
          | cons e2 rest2 =>
            have hlen2 : rest2.length ≤ n := by
              have : rest2.length + 1 ≤ n := by simpa using hlen1
              omega
            have ihr := ih rest2 hlen2 nd
            simp [JsonConfig.listen, List.count_cons]
            omega

/-- Helper: each notification consumes two delivered events, so the
trace bounds the notification count. -/
theorem listen_two_mul_notify_le :
    ∀ (n : Nat) (es : List JsonConfig.Ev), es.length ≤ n → ∀ (doc : Document),
      2 * (JsonConfig.listen doc es).2.count JsonConfig.Act.notify ≤ es.length := by
  intro n
  induction n with
  | zero =>
    intro es hlen doc
    have he : es = [] := List.eq_nil_of_length_eq_zero (Nat.le_zero.mp hlen)
    subst he
    simp [JsonConfig.listen]
  | succ n ih =>
    intro es hlen doc
    cases es with
    | nil => simp [JsonConfig.listen]
    | cons e rest =>
      have hlen1 : rest.length ≤ n := Nat.le_of_succ_le_succ (by simpa using hlen)
      cases e with
      | subErr =>
        have := ih rest hlen1 doc
        simp only [JsonConfig.listen, List.length_cons]
        omega
      | other =>
        cases rest with
        | nil => simp [JsonConfig.listen]
        | cons e2 rest2 =>
          have hlen2 : rest2.length ≤ n := by
            have : rest2.length + 1 ≤ n := by simpa using hlen1
            omega
          have ihr := ih rest2 hlen2 doc
          simp [JsonConfig.listen, List.count_cons]
          omega
      | write o =>
        cases o with
        | readErr =>
          have := ih rest hlen1 doc
          simp only [JsonConfig.listen, List.length_cons]
          omega
        | parseErr =>
          have := ih rest hlen1 doc
          simp only [JsonConfig.listen, List.length_cons]
          omega
        | newDoc nd =>
          cases rest with
          | nil => simp [JsonConfig.listen]
          | cons e2 rest2 =>
            have hlen2 : rest2.length ≤ n := by
              have : rest2.length + 1 ≤ n := by simpa using hlen1
              omega
            have ihr := ih rest2 hlen2 nd
            simp [JsonConfig.listen, List.count_cons]
            omega

/-- Claim C1 fails as stated: in the legacy variant Get dereferences the
raw pointer of an absent key and panics instead of returning the
default; in the watchable variant a stored JSON null is a nil raw
pointer and Get panics on it instead of returning the default. -/
theorem c1_get_default_counterexample :
    JsonConfig.newConf exIdText = Except.ok exIdDoc ∧
    LegacyConfig.GetInt exIdDoc "missing" 42 = Res.panic ∧
    LegacyConfig.GetInt exIdDoc "missing" 42 ≠ Res.ok 42 ∧
    JsonConfig.newConf exNullText = Except.ok exNullDoc ∧
    JsonConfig.GetInt exNullDoc "k" 42 = Res.panic ∧
    JsonConfig.GetInt exNullDoc "k" 42 ≠ Res.ok 42 := by
  refine ⟨by decide, by decide, by decide, by decide, by decide, by decide⟩

/-- Claim C1 (amended): in the watchable variant, Get(key, default)
returns the default when the key is absent, the decoded value when the
raw value decodes, and the default on any decode error; the only
failure mode is a stored JSON null (nil raw pointer), which panics.
In the legacy variant Get on an absent key panics instead of returning
the default. -/
theorem c1_get_default (c : Document) (key : String) (d : Int) :
    (lookupRaw c key = none →
      JsonConfig.GetInt c key d = Res.ok d ∧ LegacyConfig.GetInt c key d = Res.panic) ∧
    (∀ raw v, lookupRaw c key = some (some raw) → unmarshalInt raw = Except.ok v →
      JsonConfig.GetInt c key d = Res.ok v) ∧
    (∀ raw e, lookupRaw c key = some (some raw) → unmarshalInt raw = Except.error e →
      JsonConfig.GetInt c key d = Res.ok d) ∧
    (lookupRaw c key = some none → JsonConfig.GetInt c key d = Res.panic) := by
  refine ⟨?_, ?_, ?_, ?_⟩
  · intro h
    exact ⟨by simp [JsonConfig.GetInt, JsonConfig.getInt, h],
           by simp [LegacyConfig.GetInt, LegacyConfig.getInt, h]⟩
  · intro raw v h hu
    simp [JsonConfig.GetInt, JsonConfig.getInt, h, hu]
  · intro raw e h hu
    simp [JsonConfig.GetInt, JsonConfig.getInt, h, hu]
  · intro h
    simp [JsonConfig.GetInt, JsonConfig.getInt, h]

/-- Witness for c1_get_default: Get(missing, 42) on a document without
the key returns 42 in the watchable variant. -/
theorem c1_get_default_witness :
    JsonConfig.GetInt exIdDoc "missing" 42 = Res.ok 42 :=
  ((c1_get_default exIdDoc "missing" 42).1 (by decide)).1

/-- Claim C2 fails as stated: the legacy variant's Section dereferences
the raw pointer of an absent key without any existence check and
panics instead of failing with a NotFoundError. -/
theorem c2_section_counterexample :
    JsonConfig.newConf exIdText = Except.ok exIdDoc ∧
    LegacyConfig.Section exIdDoc "missing" = Res.panic := by
  refine ⟨by decide, by decide⟩

/-- Claim C2 (amended): in the watchable variant Section on an absent
key fails with an error naming the key and never panics; in the legacy
variant Section on an absent key panics.  In both variants, a key whose
value is itself an object yields a new Document parsed from that raw
value. -/
theorem c2_section (c : Document) (key : String) :
    (lookupRaw c key = none →
      (JsonConfig.Section c key).1 = Res.err (JErr.sectionNotFound key) ∧
      LegacyConfig.Section c key = Res.panic) ∧
    (∀ raw ms, lookupRaw c key = some (some raw) → unmarshalDoc raw = Except.ok ms →
      (JsonConfig.Section c key).1 = Res.ok ms ∧ LegacyConfig.Section c key = Res.ok ms) := by
  constructor
  · intro h
    exact ⟨by simp [JsonConfig.Section, h], by simp [LegacyConfig.Section, h]⟩
  · intro raw ms h hu
    exact ⟨by simp [JsonConfig.Section, h, hu], by simp [LegacyConfig.Section, h, hu]⟩

/-- Witness for c2_section: Section on the nested-address document
returns the nested city/street document in both variants. -/
theorem c2_section_witness :
    (JsonConfig.Section exAddrDoc "address").1 = Res.ok exCityDoc ∧
    LegacyConfig.Section exAddrDoc "address" = Res.ok exCityDoc :=
  (c2_section exAddrDoc "address").2 exAddrRaw exCityDoc (by decide) (by decide)

/-- Claim C3: the watch lifecycle is an idempotent two-state machine: a
second Watch on a watching handle fails with ErrAlreadyBeingWatched and
changes nothing (the single subscription from the first Watch stays),
StopWatching on a non-watching handle fails with ErrNotBeingWatched and
changes nothing, and a handle can be started, stopped and re-started. -/
theorem c3_watch_lifecycle (s : JsonConfig.WatchState) (w w2 : Nat) :
    ((JsonConfig.Watch s (Except.ok w)).1 = Except.ok () →
      (JsonConfig.Watch (JsonConfig.Watch s (Except.ok w)).2 (Except.ok w2)).1
          = Except.error JsonConfig.WatchErr.alreadyBeingWatched ∧
      (JsonConfig.Watch (JsonConfig.Watch s (Except.ok w)).2 (Except.ok w2)).2
          = (JsonConfig.Watch s (Except.ok w)).2 ∧
      (JsonConfig.Watch s (Except.ok w)).2.watcher = some w) ∧
    (s.isBeingWatched = false →
      (JsonConfig.StopWatching s).1 = JsonConfig.StopRes.errNotBeingWatched ∧
      (JsonConfig.StopWatching s).2 = s) ∧
    (JsonConfig.Watch JsonConfig.initState (Except.ok w)).1 = Except.ok () ∧
    (JsonConfig.StopWatching (JsonConfig.Watch JsonConfig.initState (Except.ok w)).2).1
        = JsonConfig.StopRes.ok ∧
    (JsonConfig.Watch
        (JsonConfig.StopWatching (JsonConfig.Watch JsonConfig.initState (Except.ok w)).2).2
        (Except.ok w2)).1 = Except.ok () := by
  refine ⟨?_, ?_, ?_, ?_, ?_⟩
  · intro h
    by_cases hb : s.isBeingWatched
    · simp [JsonConfig.Watch, hb] at h
    · simp [JsonConfig.Watch, hb]
  · intro h
    simp [JsonConfig.StopWatching, h]
  · simp [JsonConfig.Watch, JsonConfig.initState]
  · simp [JsonConfig.Watch, JsonConfig.StopWatching, JsonConfig.initState]
  · simp [JsonConfig.Watch, JsonConfig.StopWatching, JsonConfig.initState]

/-- Witness for c3_watch_lifecycle: concrete double-start and idle-stop
outcomes. -/
theorem c3_watch_lifecycle_witness :
    (JsonConfig.Watch (JsonConfig.Watch JsonConfig.initState (Except.ok 0)).2 (Except.ok 1)).1
        = Except.error JsonConfig.WatchErr.alreadyBeingWatched ∧
    (JsonConfig.StopWatching JsonConfig.initState).1
        = JsonConfig.StopRes.errNotBeingWatched := by
  have h := c3_watch_lifecycle JsonConfig.initState 0 1
  exact ⟨(h.1 (by decide)).1, (h.2.1 (by decide)).1⟩

/-- Claim C4: reload is all-or-nothing.  A write event whose read or
parse fails leaves the listener exactly where it was (same document,
no actions, still processing the rest of the trace), and any trace
free of successful-reload write events leaves the document unchanged. -/
theorem c4_reload_all_or_nothing (doc : Document) (rest es : List JsonConfig.Ev) :
    JsonConfig.listen doc (JsonConfig.Ev.write JsonConfig.ReloadOutcome.readErr :: rest)
      = JsonConfig.listen doc rest ∧
    JsonConfig.listen doc (JsonConfig.Ev.write JsonConfig.ReloadOutcome.parseErr :: rest)
      = JsonConfig.listen doc rest ∧
    ((∀ d, JsonConfig.Ev.write (JsonConfig.ReloadOutcome.newDoc d) ∉ es) →
      (JsonConfig.listen doc es).1 = doc) := by
  refine ⟨rfl, rfl, ?_⟩
  intro h
  exact listen_fst_of_no_newDoc es.length es le_rfl doc h

/-- Witness for c4_reload_all_or_nothing: a trace of one failed-read
write event and one error-channel event leaves the document as it was. -/
theorem c4_reload_all_or_nothing_witness :
    (JsonConfig.listen exCityDoc
        [JsonConfig.Ev.write JsonConfig.ReloadOutcome.readErr, JsonConfig.Ev.subErr]).1
      = exCityDoc :=
  (c4_reload_all_or_nothing exCityDoc []
      [JsonConfig.Ev.write JsonConfig.ReloadOutcome.readErr, JsonConfig.Ev.subErr]).2.2
    (by intro d; simp)

/-- Claim C5 fails as stated: after a successful reload the listener
receives and discards one further event before sending the
notification, so a successful reload followed by no further event swaps
the document but emits no notification; and a non-write event also
produces a notification even though nothing was reloaded. -/
theorem c5_notify_counterexample :
    JsonConfig.listen exIdDoc
        [JsonConfig.Ev.write (JsonConfig.ReloadOutcome.newDoc exCityDoc)]
      = (exCityDoc,
         [JsonConfig.Act.lock, JsonConfig.Act.swapDoc exCityDoc, JsonConfig.Act.unlock]) ∧
    JsonConfig.listen exIdDoc [JsonConfig.Ev.other, JsonConfig.Ev.other]
      = (exIdDoc, [JsonConfig.Act.discardEvent, JsonConfig.Act.notify]) :=
  ⟨rfl, rfl⟩

/-- Claim C5 (amended): on a successful reload the listener swaps the
document wholesale under the write lock, but then receives and discards
one further event before emitting its single notification (with no
further event it stays blocked, having swapped without notifying);
a non-write event also leads to one notification after one discarded
event; failed reload cycles emit nothing; and in every trace the
notifications are exactly paired with discarded events, two delivered
events per notification. -/
theorem c5_notify_after_discard (doc nd : Document) (e2 : JsonConfig.Ev)
    (rest es : List JsonConfig.Ev) :
    JsonConfig.listen doc
        (JsonConfig.Ev.write (JsonConfig.ReloadOutcome.newDoc nd) :: e2 :: rest)
      = ((JsonConfig.listen nd rest).1,
         JsonConfig.Act.lock :: JsonConfig.Act.swapDoc nd :: JsonConfig.Act.unlock ::
           JsonConfig.Act.discardEvent :: JsonConfig.Act.notify ::
             (JsonConfig.listen nd rest).2) ∧
    JsonConfig.listen doc [JsonConfig.Ev.write (JsonConfig.ReloadOutcome.newDoc nd)]
      = (nd, [JsonConfig.Act.lock, JsonConfig.Act.swapDoc nd, JsonConfig.Act.unlock]) ∧
    JsonConfig.listen doc (JsonConfig.Ev.other :: e2 :: rest)
      = ((JsonConfig.listen doc rest).1,
         JsonConfig.Act.discardEvent :: JsonConfig.Act.notify ::
           (JsonConfig.listen doc rest).2) ∧
    JsonConfig.listen doc (JsonConfig.Ev.write JsonConfig.ReloadOutcome.readErr :: rest)
      = JsonConfig.listen doc rest ∧
    JsonConfig.listen doc (JsonConfig.Ev.write JsonConfig.ReloadOutcome.parseErr :: rest)
      = JsonConfig.listen doc rest ∧
    (JsonConfig.listen doc es).2.count JsonConfig.Act.notify
      = (JsonConfig.listen doc es).2.count JsonConfig.Act.discardEvent ∧
    2 * (JsonConfig.listen doc es).2.count JsonConfig.Act.notify ≤ es.length :=
  ⟨rfl, rfl, rfl, rfl, rfl,
   listen_notify_eq_discard es.length es le_rfl doc,
   listen_two_mul_notify_le es.length es le_rfl doc⟩

/-- Claim C6 names a code bug: every scalar getter and SectionAsJSON
acquire the read side of the document lock, but Section and
UnmarshalSection read the document with no lock operation at all, so
they can race the write-locked swap of a concurrent reload. -/
theorem c6_lock_discipline (c : Document) (key : String)
    (dec : Raw → Except JErr Unit) :
    LockOp.rlock ∈ (JsonConfig.getBool c key).2 ∧
    LockOp.rlock ∈ (JsonConfig.getString c key).2 ∧
    LockOp.rlock ∈ (JsonConfig.getInt c key).2 ∧
    LockOp.rlock ∈ (JsonConfig.getUint64 c key).2 ∧
    LockOp.rlock ∈ (JsonConfig.getStringSlice c key).2 ∧
    LockOp.rlock ∈ (JsonConfig.getTime c key).2 ∧
    LockOp.rlock ∈ (JsonConfig.SectionAsJSON c key).2 ∧
    (JsonConfig.Section c key).2 = [] ∧
    (JsonConfig.UnmarshalSection c key dec).2 = [] := by
  have hstr : LockOp.rlock ∈ (JsonConfig.getString c key).2 := by
    rcases h : lookupRaw c key with _ | (_ | raw)
    · simp [JsonConfig.getString, h]
    · simp [JsonConfig.getString, h]
    · rcases hu : unmarshalString raw with e | v <;> simp [JsonConfig.getString, h, hu]
  have hb : LockOp.rlock ∈ (JsonConfig.getBool c key).2 := by
    rcases h : lookupRaw c key with _ | (_ | raw)
    · simp [JsonConfig.getBool, h]
    · simp [JsonConfig.getBool, h]
    · rcases hu : unmarshalBool raw with e | v <;> simp [JsonConfig.getBool, h, hu]
  have hi : LockOp.rlock ∈ (JsonConfig.getInt c key).2 := by
    rcases h : lookupRaw c key with _ | (_ | raw)
    · simp [JsonConfig.getInt, h]
    · simp [JsonConfig.getInt, h]
    · rcases hu : unmarshalInt raw with e | v <;> simp [JsonConfig.getInt, h, hu]
  have hu64 : LockOp.rlock ∈ (JsonConfig.getUint64 c key).2 := by
    rcases h : lookupRaw c key with _ | (_ | raw)
    · simp [JsonConfig.getUint64, h]
    · simp [JsonConfig.getUint64, h]
    · rcases hu : unmarshalUint64 raw with e | v <;> simp [JsonConfig.getUint64, h, hu]
  have hss : LockOp.rlock ∈ (JsonConfig.getStringSlice c key).2 := by
    rcases h : lookupRaw c key with _ | (_ | raw)
    · simp [JsonConfig.getStringSlice, h]
    · simp [JsonConfig.getStringSlice, h]
    · rcases hu : unmarshalStringSlice raw with e | v <;>
        simp [JsonConfig.getStringSlice, h, hu]
  have ht : LockOp.rlock ∈ (JsonConfig.getTime c key).2 := by
    rcases hg : JsonConfig.getString c key with ⟨r, tr⟩
    have htr : LockOp.rlock ∈ tr := by
      rw [hg] at hstr
      exact hstr
    cases r with
    | panic =>
      simp [JsonConfig.getTime, hg]
      exact htr
    | err e =>
      simp [JsonConfig.getTime, hg]
      exact htr
    | ok s =>
      rcases hd : parseDate s with _ | d <;> simp [JsonConfig.getTime, hg, hd] <;> exact htr
  have hsj : LockOp.rlock ∈ (JsonConfig.SectionAsJSON c key).2 := by
    rcases h : lookupRaw c key with _ | (_ | raw) <;> simp [JsonConfig.SectionAsJSON, h]
  have hsec : (JsonConfig.Section c key).2 = [] := by
    rcases h : lookupRaw c key with _ | (_ | raw)
    · simp [JsonConfig.Section, h]
    · simp [JsonConfig.Section, h]
    · rcases hu : unmarshalDoc raw with e | ms <;> simp [JsonConfig.Section, h, hu]
  have huns : (JsonConfig.UnmarshalSection c key dec).2 = [] := by
    rcases h : lookupRaw c key with _ | (_ | raw)
    · simp [JsonConfig.UnmarshalSection, h]
    · simp [JsonConfig.UnmarshalSection, h]
    · rcases hu : dec raw with e | u <;> simp [JsonConfig.UnmarshalSection, h, hu]
  exact ⟨hb, hstr, hi, hu64, hss, ht, hsj, hsec, huns⟩

/-- Claim C7: parsing accepts every well-formed document whose top
level is an object, rejects every well-formed document whose top level
is an array with a type error, and rejects malformed text with a
decode error distinguishable from the type error, as on the
repository's own test inputs.  (A top-level null is neither: it sets
the map to nil with no error, reading as the empty document.) -/
theorem c7_parse_shape (s : List Char) :
    (∀ ms, parseFull s = some (JVal.jobj ms) → JsonConfig.newConf s = Except.ok ms) ∧
    (∀ es, parseFull s = some (JVal.jarr es) →
      JsonConfig.newConf s = Except.error (JErr.typeMismatch "map")) ∧
    (parseFull s = none → JsonConfig.newConf s = Except.error JErr.malformed) ∧
    (parseFull s = some JVal.jnull → JsonConfig.newConf s = Except.ok []) ∧
    JErr.typeMismatch "map" ≠ JErr.malformed ∧
    JsonConfig.newConf exAddrText = Except.ok exAddrDoc ∧
    JsonConfig.newConf exArrText = Except.error (JErr.typeMismatch "map") ∧
    JsonConfig.newConf exNullTopText = Except.ok [] ∧
    JsonConfig.newConf exBadText = Except.error JErr.malformed := by
  refine ⟨?_, ?_, ?_, ?_, by decide, by decide, by decide, by decide, by decide⟩
  · intro ms h
    simp [JsonConfig.newConf, unmarshalDoc, h]
  · intro es h
    simp [JsonConfig.newConf, unmarshalDoc, h]
  · intro h
    simp [JsonConfig.newConf, unmarshalDoc, h]
  · intro h
    simp [JsonConfig.newConf, unmarshalDoc, h]

/-- Witness for c7_parse_shape: the nested-address test document parses
into its document mapping. -/
theorem c7_parse_shape_witness :
    JsonConfig.newConf exAddrText = Except.ok exAddrDoc :=
  (c7_parse_shape exAddrText).1 exAddrDoc (by rfl)

/-- Claim C8 fails as stated: a stored JSON null is a nil raw pointer,
so getTime panics on it instead of failing with a DecodeError. -/
theorem c8_time_counterexample :
    JsonConfig.newConf exNullBdayText = Except.ok exNullBdayDoc ∧
    (JsonConfig.getTime exNullBdayDoc "birthday").1 = Res.panic := by
  refine ⟨by decide, by decide⟩

/-- Claim C8 (amended): timestamp decoding first decodes the raw value
as a string and then parses it with the fixed day.month.4-digit-year
layout; "12.09.2018" yields day 12, month 9, year 2018, and any
non-null value that is not a string in that layout fails with the
corresponding decode error (a null value panics instead). -/
theorem c8_time_decoding (c : Document) (key : String) :
    (∀ s, (JsonConfig.getString c key).1 = Res.ok s →
      (JsonConfig.getTime c key).1
        = (match parseDate s with
           | some d => Res.ok d
           | none => Res.err JErr.timeParseErr)) ∧
    (∀ e, (JsonConfig.getString c key).1 = Res.err e →
      (JsonConfig.getTime c key).1 = Res.err e) ∧
    parseDate "12.09.2018" = some ⟨12, 9, 2018⟩ ∧
    (JsonConfig.getTime exBdayDoc "birthday").1 = Res.ok ⟨12, 9, 2018⟩ ∧
    parseDate "2018-09-12" = none ∧
    parseDate "30m" = none := by
  refine ⟨?_, ?_, by decide, by decide, by decide, by decide⟩
  · intro s h
    rcases hg : JsonConfig.getString c key with ⟨r, tr⟩
    rw [hg] at h
    simp at h
    subst h
    rcases hd : parseDate s with _ | d <;> simp [JsonConfig.getTime, hg, hd]
  · intro e h
    rcases hg : JsonConfig.getString c key with ⟨r, tr⟩
    rw [hg] at h
    simp at h
    subst h
    simp [JsonConfig.getTime, hg]

/-- Witness for c8_time_decoding: the birthday document's value decodes
through the date layout. -/
theorem c8_time_decoding_witness :
    (JsonConfig.getTime exBdayDoc "birthday").1
      = (match parseDate "12.09.2018" with
         | some d => Res.ok d
         | none => Res.err JErr.timeParseErr) :=
  (c8_time_decoding exBdayDoc "birthday").1 "12.09.2018" (by decide)

/-- Claim C9: for a key holding a nested object, Section and
SectionAsJSON followed by a fresh parse run json.Unmarshal over the
same raw slice, so the round trip yields the same document. -/
theorem c9_roundtrip (c : Document) (key : String) (raw : Raw) (ms : Document) :
    lookupRaw c key = some (some raw) →
    unmarshalDoc raw = Except.ok ms →
    (JsonConfig.Section c key).1 = Res.ok ms ∧
    (JsonConfig.SectionAsJSON c key).1 = Res.ok (String.mk raw) ∧
    JsonConfig.newConf (String.mk raw).data = Except.ok ms := by
  intro h1 h2
  refine ⟨?_, ?_, ?_⟩
  · simp [JsonConfig.Section, h1, h2]
  · simp [JsonConfig.SectionAsJSON, h1]
  · show JsonConfig.newConf raw = Except.ok ms
    exact h2

/-- Witness for c9_roundtrip: the address section of the test document
round-trips through its raw text. -/
theorem c9_roundtrip_witness :
    (JsonConfig.Section exAddrDoc "address").1 = Res.ok exCityDoc ∧
    (JsonConfig.SectionAsJSON exAddrDoc "address").1 = Res.ok (String.mk exAddrRaw) ∧
    JsonConfig.newConf (String.mk exAddrRaw).data = Except.ok exCityDoc :=
  c9_roundtrip exAddrDoc "address" exAddrRaw exCityDoc (by decide) (by decide)

/-- Claim C10: a NewWatcher failure during Watch on an idle handle
returns that error but leaves the flag set, so every later Watch fails
with ErrAlreadyBeingWatched although no watcher exists, and a later
StopWatching reaches Close on the nil watcher pointer. -/
theorem c10_watch_failure_leaves_flag (s : JsonConfig.WatchState) (ec w : Nat) :
    s.isBeingWatched = false →
    (JsonConfig.Watch s (Except.error ec)).1
        = Except.error (JsonConfig.WatchErr.watcherErr ec) ∧
    (JsonConfig.Watch s (Except.error ec)).2.isBeingWatched = true ∧
    (JsonConfig.Watch s (Except.error ec)).2.watcher = s.watcher ∧
    (JsonConfig.Watch (JsonConfig.Watch s (Except.error ec)).2 (Except.ok w)).1
        = Except.error JsonConfig.WatchErr.alreadyBeingWatched ∧
    (s.watcher = none →
      (JsonConfig.StopWatching (JsonConfig.Watch s (Except.error ec)).2).1
        = JsonConfig.StopRes.panicNilWatcher) := by
  intro h
  refine ⟨?_, ?_, ?_, ?_, ?_⟩
  · simp [JsonConfig.Watch, h]
  · simp [JsonConfig.Watch, h]
  · simp [JsonConfig.Watch, h]
  · simp [JsonConfig.Watch, h]
  · intro hw
    simp [JsonConfig.Watch, JsonConfig.StopWatching, h, hw]

/-- Witness for c10_watch_failure_leaves_flag: concrete run from a
fresh handle with a failing NewWatcher. -/
theorem c10_watch_failure_witness :
    (JsonConfig.Watch JsonConfig.initState (Except.error 7)).1
        = Except.error (JsonConfig.WatchErr.watcherErr 7) ∧
    (JsonConfig.Watch (JsonConfig.Watch JsonConfig.initState (Except.error 7)).2
        (Except.ok 0)).1 = Except.error JsonConfig.WatchErr.alreadyBeingWatched ∧
    (JsonConfig.StopWatching
        (JsonConfig.Watch JsonConfig.initState (Except.error 7)).2).1
      = JsonConfig.StopRes.panicNilWatcher := by
  have h := c10_watch_failure_leaves_flag JsonConfig.initState 7 0 (by decide)
  exact ⟨h.1, h.2.2.2.1, h.2.2.2.2 (by decide)⟩

end GoConfig
